import Mathlib

/-!
Verification of the aggregation pipeline of the Restarant repository:
SQL generation, join-column inference, result pivoting/sorting, the
BIGINT decoder, and the Y-axis drop handler.  Each definition is a
shallow embedding of the corresponding JavaScript/TypeScript function;
the doc comment of each definition names its source location.
-/

namespace Restarant

/-! ## Data model -/

/-- Schema column as served by `GET /database/tables/:name/columns`:
the fields the join inference reads (`key`, `type`). -/
structure SchemaColumn where
  key : String
  type : String
deriving DecidableEq, Repr

/-- Table schema: `{ tableName, columns }` (cached per table in the UI). -/
structure TableSchema where
  tableName : String
  columns : List SchemaColumn
deriving DecidableEq, Repr

/-- A UI column (`DatabaseColumn` in the TypeScript sources), restricted to
the fields the pipeline reads: `key`, `tableName`, `type`. -/
structure DatabaseColumn where
  key : String
  tableName : String
  type : String
deriving DecidableEq, Repr

/-- A column reference sent in an aggregation request:
`{ key, tableName }`. -/
structure AggColumn where
  key : String
  tableName : String
deriving DecidableEq, Repr

/-- A JSON filter value: either a non-array scalar or an array of scalars
(the `BETWEEN` branch of the backend tests `Array.isArray(filter.value)`). -/
inductive FilterVal where
  | scalar (v : String)
  | arr (elems : List String)
deriving DecidableEq, Repr

/-- A value pushed onto the SQL parameter list: a JSON value, or JavaScript
`undefined` (pushed when `filter.value[1]` is read past the end of the
array). -/
inductive ParamVal where
  | val (v : FilterVal)
  | jsUndefined
deriving DecidableEq, Repr

/-! ## BIGINT type decoder (src/unnamed/part_001 and part_002, lines 9-13)

`types.setTypeParser(20, (val) => { const parsed = parseInt(val, 10);
return Number.isSafeInteger(parsed) ? parsed : val; })` -/

/-- Longest leading run of decimal digits of a character list. -/
def leadingDigits : List Char → List Char
  | [] => []
  | c :: cs => if c.isDigit then c :: leadingDigits cs else []

/-- Model of JavaScript `parseInt(val, 10)` on the strings the store emits
(optional sign followed by decimal digits; trailing non-digits are ignored,
`none` models `NaN`).  The model is exact where JavaScript rounds to a
float; rounding never moves a value across the safe-integer boundary, so
the safe/unsafe classification below agrees with the float semantics. -/
def jsParseInt (val : String) : Option Int :=
  let cs := val.toList
  let signRest : Bool × List Char :=
    match cs with
    | '-' :: r => (true, r)
    | '+' :: r => (false, r)
    | r => (false, r)
  let ds := leadingDigits signRest.2
  if ds.isEmpty then none
  else
    let n : Nat := ds.foldl (fun acc c => acc * 10 + (c.toNat - '0'.toNat)) 0
    some (if signRest.1 then -(n : Int) else (n : Int))

/-- `Number.MAX_SAFE_INTEGER` = 2^53 - 1. -/
def maxSafe : Int := 9007199254740991

/-- `Number.isSafeInteger` on an exact integer. -/
def isSafeInt (n : Int) : Bool := -maxSafe ≤ n && n ≤ maxSafe

/-- A decoded store value delivered to the caller: a number or the original
string. -/
inductive PgValue where
  | num (n : Int)
  | str (s : String)
deriving DecidableEq, Repr

/-- The BIGINT (OID 20) type decoder installed on the pg driver
(part_002 lines 10-13): parse, then return the number when safe and the
original string otherwise (`Number.isSafeInteger(NaN)` is `false`, so an
unparseable string is returned as-is). -/
def decodeBigint (val : String) : PgValue :=
  match jsParseInt val with
  | some n => if isSafeInt n then .num n else .str val
  | none => .str val

/-! ## Y-axis drop handler (src/unnamed/part_006 lines 316-323,
part_008 lines 275-282, DynamicChartBuilder.tsx lines 359-376) -/

/-- The `axis === "y"` branch of `handleDrop`:
`prev.some((c) => c.key === col.key) ? prev : [...prev, col]`. -/
def handleDropY (prev : List DatabaseColumn) (col : DatabaseColumn) :
    List DatabaseColumn :=
  if prev.any (fun c => c.key == col.key) then prev else prev ++ [col]

/-! ## Join-column inference (src/unnamed/part_006 lines 103-125,
DynamicChartBuilder.tsx lines 163-173) -/

/-- The nested loop of `inferredJoinColumns` for one secondary schema:
iterate primary columns in order, and for each, secondary columns in
order; on the first pair with equal `key` and equal `type`, record the
primary column's key and stop. -/
def inferJoin (p s : TableSchema) : Option String :=
  (p.columns.find? (fun pCol =>
    s.columns.any (fun sCol => pCol.key == sCol.key && pCol.type == sCol.type))).map
    (fun c => c.key)

/-! ## Theorems for the decoder, the drop handler and join inference -/

/-- C9: a decoded 64-bit aggregate value is delivered as a number exactly
when the parsed integer is a safe integer, and as the original string
otherwise. -/
theorem bigint_decode_safe_integer (val : String) (n : Int) :
    (decodeBigint val = .num n ↔ jsParseInt val = some n ∧ isSafeInt n = true)
  ∧ (decodeBigint val = .str val ↔ ∀ m, jsParseInt val = some m → isSafeInt m = false) := by
  constructor
  · unfold decodeBigint
    cases h : jsParseInt val with
    | none => simp
    | some m =>
      by_cases hs : isSafeInt m = true
      · simp only [hs, if_true, PgValue.num.injEq, Option.some.injEq]
        constructor
        · rintro rfl; exact ⟨rfl, hs⟩
        · rintro ⟨rfl, _⟩; rfl
      · simp only [hs, if_false, Bool.false_eq_true, Option.some.injEq]
        constructor
        · intro hc; exact absurd hc (by simp)
        · rintro ⟨rfl, hsafe⟩; exact absurd hsafe hs
  · unfold decodeBigint
    cases h : jsParseInt val with
    | none => simp
    | some m =>
      by_cases hs : isSafeInt m = true
      · simp [hs]
      · have hms : isSafeInt m = false := Bool.eq_false_iff.mpr hs
        simp only [hms, Bool.false_eq_true, if_false, Option.some.injEq]
        constructor
        · rintro _ m' rfl
          exact hms
        · intro _; trivial

/-- Witness for C9: the decoder applied to a safe value and to a value past
the safe range. -/
theorem bigint_decode_safe_integer_witness :
    decodeBigint "123" = .num 123 ∧ decodeBigint "9007199254740993" = .str "9007199254740993" := by
  constructor
  · exact ((bigint_decode_safe_integer "123" 123).1).mpr ⟨by decide, by decide⟩
  · exact ((bigint_decode_safe_integer "9007199254740993" 0).2).mpr (by decide)

/-- Key-distinctness is preserved by one Y-axis drop. -/
lemma handleDropY_keys_nodup (prev : List DatabaseColumn) (col : DatabaseColumn)
    (h : (prev.map (fun c => c.key)).Nodup) :
    ((handleDropY prev col).map (fun c => c.key)).Nodup := by
  by_cases hc : prev.any (fun c => c.key == col.key) = true
  · simpa [handleDropY, hc] using h
  · have hnot : col.key ∉ prev.map (fun c => c.key) := by
      simp only [List.any_eq_true, beq_iff_eq] at hc
      simp only [List.mem_map]
      rintro ⟨c, hcmem, hck⟩
      exact hc ⟨c, hcmem, hck⟩
    simp only [handleDropY, hc, if_false, Bool.false_eq_true, List.map_append, List.map_cons,
      List.map_nil, List.nodup_append]
    refine ⟨h, List.nodup_singleton _, ?_⟩
    intro a ha hb
    simp only [List.mem_singleton] at hb
    exact hnot (hb ▸ ha)

/-- C10: the Y-axis drop handler keeps the list unchanged when a column
with an equal key is present, appends at the end otherwise, and therefore
any Y-axis list built by dropping columns has pairwise-distinct keys. -/
theorem yaxis_drop_no_duplicate_keys :
    (∀ (prev : List DatabaseColumn) (col : DatabaseColumn),
      (∃ c ∈ prev, c.key = col.key) → handleDropY prev col = prev)
  ∧ (∀ (prev : List DatabaseColumn) (col : DatabaseColumn),
      (¬ ∃ c ∈ prev, c.key = col.key) → handleDropY prev col = prev ++ [col])
  ∧ (∀ (prev : List DatabaseColumn) (col : DatabaseColumn),
      (prev.map (fun c => c.key)).Nodup → ((handleDropY prev col).map (fun c => c.key)).Nodup)
  ∧ (∀ drops : List DatabaseColumn,
      ((drops.foldl handleDropY []).map (fun c => c.key)).Nodup) := by
  refine ⟨?_, ?_, handleDropY_keys_nodup, ?_⟩
  · intro prev col h
    have hc : prev.any (fun c => c.key == col.key) = true := by
      simpa [List.any_eq_true] using h
    simp [handleDropY, hc]
  · intro prev col h
    have hc : ¬ prev.any (fun c => c.key == col.key) = true := by
      simpa [List.any_eq_true] using h
    simp [handleDropY, hc]
  · intro drops
    have h : ∀ (acc : List DatabaseColumn), (acc.map (fun c => c.key)).Nodup →
        ((drops.foldl handleDropY acc).map (fun c => c.key)).Nodup := by
      induction drops with
      | nil => intro acc hacc; simpa using hacc
      | cons d ds ih =>
        intro acc hacc
        exact ih _ (handleDropY_keys_nodup acc d hacc)
    exact h [] (by simp)

/-- Witness for C10: dropping a duplicate key leaves the list unchanged;
dropping a fresh key appends. -/
theorem yaxis_drop_no_duplicate_keys_witness :
    handleDropY [⟨"sales", "orders", "integer"⟩] ⟨"sales", "orders", "bigint"⟩ =
      [⟨"sales", "orders", "integer"⟩] ∧
    handleDropY [⟨"sales", "orders", "integer"⟩] ⟨"city", "orders", "text"⟩ =
      [⟨"sales", "orders", "integer"⟩, ⟨"city", "orders", "text"⟩] := by
  constructor
  · exact yaxis_drop_no_duplicate_keys.1 _ _ ⟨⟨"sales", "orders", "integer"⟩, by decide, rfl⟩
  · exact yaxis_drop_no_duplicate_keys.2.1 _ _ (by decide)

/-- C8: join inference returns the key of the first primary-order column
pair matching on key and type, no result when no pair matches, and is
deterministic. -/
theorem inferJoin_first_match_deterministic (p s : TableSchema) :
    (inferJoin p s = none ↔
      ∀ pc ∈ p.columns, ∀ sc ∈ s.columns, ¬(pc.key = sc.key ∧ pc.type = sc.type))
  ∧ (∀ k, inferJoin p s = some k →
      ∃ i, ∃ h : i < p.columns.length,
        (p.columns.get ⟨i, h⟩).key = k ∧
        (∃ sc ∈ s.columns, (p.columns.get ⟨i, h⟩).key = sc.key ∧
          (p.columns.get ⟨i, h⟩).type = sc.type) ∧
        (∀ j, ∀ hj : j < p.columns.length, j < i →
          ∀ sc ∈ s.columns, ¬((p.columns.get ⟨j, hj⟩).key = sc.key ∧
            (p.columns.get ⟨j, hj⟩).type = sc.type)))
  ∧ inferJoin p s = inferJoin p s := by
  refine ⟨?_, ?_, rfl⟩
  · rw [inferJoin, Option.map_eq_none', List.find?_eq_none]
    constructor
    · intro h pc hpc sc hsc hcon
      have h2 := h pc hpc
      simp only [List.any_eq_true, Bool.and_eq_true, beq_iff_eq, not_exists, not_and] at h2
      exact h2 sc hsc hcon.1 hcon.2
    · intro h pc hpc
      simp only [List.any_eq_true, Bool.and_eq_true, beq_iff_eq, not_exists, not_and]
      intro sc hsc hk ht
      exact h pc hpc sc hsc ⟨hk, ht⟩
  · intro k h
    simp only [inferJoin, Option.map_eq_some'] at h
    obtain ⟨c, hfind, hk⟩ := h
    rw [List.find?_eq_some_iff_getElem] at hfind
    obtain ⟨hpred, i, hi, hgetc, hprev⟩ := hfind
    refine ⟨i, hi, ?_, ?_, ?_⟩
    · rw [List.get_eq_getElem, hgetc, hk]
    · simp only [List.any_eq_true, Bool.and_eq_true, beq_iff_eq] at hpred
      obtain ⟨sc, hsc, hk2, ht2⟩ := hpred
      exact ⟨sc, hsc, by rw [List.get_eq_getElem, hgetc]; exact hk2,
        by rw [List.get_eq_getElem, hgetc]; exact ht2⟩
    · intro j hj hji sc hsc hcon
      have h2 := hprev j hji
      simp only [Bool.not_eq_true', List.any_eq_false, Bool.and_eq_true, beq_iff_eq,
        not_and] at h2
      rw [List.get_eq_getElem] at hcon
      exact h2 sc hsc hcon.1 hcon.2

/-- Primary schema for the C8 witness: two columns, both also present in
the secondary schema. -/
def witnessPrimarySchema : TableSchema :=
  ⟨"users", [⟨"id", "integer"⟩, ⟨"city", "text"⟩]⟩

/-- Secondary schema for the C8 witness, listing the shared columns in the
opposite order. -/
def witnessSecondarySchema : TableSchema :=
  ⟨"orders", [⟨"city", "text"⟩, ⟨"id", "integer"⟩]⟩

/-- Witness for C8: with two matching pairs the first column in primary
schema order wins. -/
theorem inferJoin_first_match_witness :
    inferJoin witnessPrimarySchema witnessSecondarySchema = some "id" ∧
    (∃ i, ∃ h : i < witnessPrimarySchema.columns.length,
      (witnessPrimarySchema.columns.get ⟨i, h⟩).key = "id" ∧
      (∃ sc ∈ witnessSecondarySchema.columns,
        (witnessPrimarySchema.columns.get ⟨i, h⟩).key = sc.key ∧
        (witnessPrimarySchema.columns.get ⟨i, h⟩).type = sc.type) ∧
      (∀ j, ∀ hj : j < witnessPrimarySchema.columns.length, j < i →
        ∀ sc ∈ witnessSecondarySchema.columns,
          ¬((witnessPrimarySchema.columns.get ⟨j, hj⟩).key = sc.key ∧
            (witnessPrimarySchema.columns.get ⟨j, hj⟩).type = sc.type))) :=
  ⟨rfl, (inferJoin_first_match_deterministic witnessPrimarySchema witnessSecondarySchema).2.1
    "id" rfl⟩

/-! ## WHERE clause and parameter list
(src/backend/server/routes/analytics.js lines 33, 50-65) -/

/-- Identifier quoting of the PostgreSQL routers: `(s) => `"${s}"``. -/
def quoted (s : String) : String := "\"" ++ s ++ "\""

/-- A filter as received by the first `/aggregate` router of analytics.js:
`{ column, operator, value }`. -/
structure JFilter where
  column : String
  operator : String
  value : FilterVal
deriving DecidableEq, Repr

/-- `Array.isArray(filter.value)`. -/
def isArr : FilterVal → Bool
  | .arr _ => true
  | .scalar _ => false

/-- Reading `filter.value[i]` in the `BETWEEN` branch: an element when the
array is long enough, JavaScript `undefined` otherwise. -/
def arrGet : FilterVal → Nat → ParamVal
  | .arr es, i =>
    match es.get? i with
    | some e => .val (.scalar e)
    | none => .jsUndefined
  | .scalar _, _ => .jsUndefined

/-- One step of the `filters.map` of analytics.js lines 51-63, threading the
`queryParams` array: the `BETWEEN` branch pushes `value[0]` and `value[1]`
and numbers its two placeholders `queryParams.length - 1` and
`queryParams.length` (after the push); the default branch pushes the whole
value and numbers its placeholder `queryParams.length`. -/
def whereStep (acc : List String × List ParamVal) (filter : JFilter) :
    List String × List ParamVal :=
  if filter.operator == "BETWEEN" && isArr filter.value then
    let qp := acc.2 ++ [arrGet filter.value 0, arrGet filter.value 1]
    let startIdx := qp.length - 1
    let endIdx := qp.length
    (acc.1 ++ [quoted filter.column ++ " BETWEEN $" ++ toString startIdx ++ " AND $" ++
      toString endIdx], qp)
  else
    let qp := acc.2 ++ [ParamVal.val filter.value]
    (acc.1 ++ [quoted filter.column ++ " " ++ filter.operator ++ " $" ++ toString qp.length],
      qp)

/-- The whole `whereClauses`/`queryParams` construction of analytics.js
lines 48-63 (clause strings and parameter list, in order). -/
def buildWhere (filters : List JFilter) : List String × List ParamVal :=
  filters.foldl whereStep ([], [])

/-- Lines 50-65: `query += \` WHERE ...\`` only when filters is non-empty,
joining the clauses with AND. -/
def whereClauseSql (filters : List JFilter) : String :=
  if filters.length > 0 then
    " WHERE " ++ String.intercalate " AND " (buildWhere filters).1
  else ""

/-- Closed form of the fold when no filter takes the `BETWEEN` branch,
generalized over the accumulated state. -/
lemma buildWhere_from_noBetween (filters : List JFilter) (cs : List String)
    (ps : List ParamVal)
    (h : ∀ f ∈ filters, (f.operator == "BETWEEN" && isArr f.value) = false) :
    filters.foldl whereStep (cs, ps) =
      (cs ++ (filters.enumFrom ps.length).map
        (fun p => quoted p.2.column ++ " " ++ p.2.operator ++ " $" ++ toString (p.1 + 1)),
       ps ++ filters.map (fun f => ParamVal.val f.value)) := by
  induction filters generalizing cs ps with
  | nil => simp
  | cons f fs ih =>
    have hf : (f.operator == "BETWEEN" && isArr f.value) = false := h f (by simp)
    have hfs : ∀ g ∈ fs, (g.operator == "BETWEEN" && isArr g.value) = false :=
      fun g hg => h g (by simp [hg])
    simp only [List.foldl_cons, whereStep, hf, Bool.false_eq_true, if_false]
    rw [ih _ _ hfs]
    simp [List.enumFrom_cons, List.append_assoc]

/-- C5: with K non-BETWEEN filters the parameter list has length K and the
i-th clause carries placeholder `$(i+1)` bound to the i-th value; clauses
are joined with AND; no WHERE clause is emitted for an empty filter list;
and a BETWEEN filter appends its two array values with two sequential
placeholders referring to exactly those values. -/
theorem filters_params_alignment :
    (whereClauseSql [] = "")
  ∧ (∀ filters : List JFilter,
      (∀ f ∈ filters, (f.operator == "BETWEEN" && isArr f.value) = false) →
      (buildWhere filters).2 = filters.map (fun f => ParamVal.val f.value) ∧
      (buildWhere filters).2.length = filters.length ∧
      (buildWhere filters).1 = (filters.enumFrom 0).map
        (fun p => quoted p.2.column ++ " " ++ p.2.operator ++ " $" ++ toString (p.1 + 1)) ∧
      (filters ≠ [] → whereClauseSql filters =
        " WHERE " ++ String.intercalate " AND " ((filters.enumFrom 0).map
          (fun p => quoted p.2.column ++ " " ++ p.2.operator ++ " $" ++ toString (p.1 + 1)))))
  ∧ (∀ (pre : List JFilter) (f : JFilter) (a b : String),
      f.operator = "BETWEEN" → f.value = .arr [a, b] →
      buildWhere (pre ++ [f]) =
        ((buildWhere pre).1 ++ [quoted f.column ++ " BETWEEN $" ++
          toString ((buildWhere pre).2.length + 1) ++ " AND $" ++
          toString ((buildWhere pre).2.length + 2)],
         (buildWhere pre).2 ++ [.val (.scalar a), .val (.scalar b)])) := by
  refine ⟨rfl, ?_, ?_⟩
  · intro filters h
    have hb := buildWhere_from_noBetween filters [] [] h
    rw [buildWhere, hb]
    refine ⟨by simp, by simp, by simp, ?_⟩
    intro hne
    rw [whereClauseSql, if_pos (by simpa [List.length_pos] using hne), buildWhere, hb]
    simp
  · intro pre f a b hop hval
    rw [buildWhere, buildWhere, List.foldl_append, List.foldl_cons, List.foldl_nil]
    rw [whereStep, if_pos (by simp [hop, hval, isArr])]
    simp [hval, arrGet, List.length_append, List.append_assoc]

/-- A concrete filter list for the C5 witness: one plain filter followed by
one BETWEEN filter. -/
def witnessFilters : List JFilter :=
  [⟨"city", "=", .scalar "Pune"⟩]

/-- Witness for C5: the non-BETWEEN closed form at a one-filter list, and
the BETWEEN step after it. -/
theorem filters_params_alignment_witness :
    ((buildWhere witnessFilters).2 = [.val (.scalar "Pune")] ∧
     (buildWhere witnessFilters).2.length = 1 ∧
     (buildWhere witnessFilters).1 = ["\"city\" = $1"] ∧
     whereClauseSql witnessFilters = " WHERE \"city\" = $1")
  ∧ buildWhere (witnessFilters ++ [⟨"price", "BETWEEN", .arr ["10", "20"]⟩]) =
      (["\"city\" = $1", "\"price\" BETWEEN $2 AND $3"],
       [.val (.scalar "Pune"), .val (.scalar "10"), .val (.scalar "20")]) := by
  constructor
  · have h := filters_params_alignment.2.1 witnessFilters (by decide)
    refine ⟨?_, h.2.1, ?_, ?_⟩
    · rw [h.1]; rfl
    · rw [h.2.2.1]; rfl
    · rw [h.2.2.2 (by decide)]; rfl
  · rw [filters_params_alignment.2.2 witnessFilters ⟨"price", "BETWEEN", .arr ["10", "20"]⟩
      "10" "20" rfl rfl]
    rfl

/-! ## Frontend chart builder (src/unnamed/part_006) -/

/-- Whether `pat` is a prefix of `s`, on character lists. -/
def charsStartWith : List Char → List Char → Bool
  | [], _ => true
  | _ :: _, [] => false
  | p :: ps, c :: cs => p == c && charsStartWith ps cs

/-- Whether `pat` occurs contiguously in `s`, on character lists. -/
def charsHaveSub (pat : List Char) : List Char → Bool
  | [] => pat.isEmpty
  | c :: cs => charsStartWith pat (c :: cs) || charsHaveSub pat cs

/-- JavaScript `s.includes(pat)` for strings. -/
def jsIncludes (s pat : String) : Bool := charsHaveSub pat.toList s.toList

/-- JavaScript `s.toLowerCase()`, modelled characterwise. -/
def jsToLower (s : String) : String := String.mk (s.toList.map Char.toLower)

/-- JavaScript `s.toUpperCase()`, modelled characterwise. -/
def jsToUpper (s : String) : String := String.mk (s.toList.map Char.toUpper)

/-- `normalizeType` of part_006 lines 80-94: `char`/`text` types are
`string`; `int`, `float`, `double`, `decimal`, `numeric`, `real`, `number`
are `number`; anything else defaults to `string`. -/
def normalizeType (type : String) : String :=
  let lower := jsToLower type
  if jsIncludes lower "char" || lower == "text" then "string"
  else if jsIncludes lower "int" || jsIncludes lower "float" || jsIncludes lower "double" ||
      jsIncludes lower "decimal" || jsIncludes lower "numeric" || jsIncludes lower "real" ||
      lower == "number" then "number"
  else "string"

/-- The UI selection state read by `constructSqlQuery` and the fetch
effect of part_006. -/
structure FrontendState where
  tableName : String
  secondaryTableNames : List String
  allTableSchemas : List TableSchema
  xAxisColumn : Option DatabaseColumn
  yAxisColumns : List DatabaseColumn
  groupByColumn : Option DatabaseColumn
  aggregationType : String
deriving DecidableEq, Repr

/-- `effectiveGroupByColumn` of part_006 lines 97-100: null when group-by
or x-axis is unset, or when their keys coincide. -/
def effectiveGroupByColumn (st : FrontendState) : Option DatabaseColumn :=
  match st.groupByColumn, st.xAxisColumn with
  | some g, some x => if g.key == x.key then none else some g
  | _, _ => none

/-- `inferredJoinColumns` of part_006 lines 103-125: one entry per
secondary table whose schema is cached and shares a name+type-matching
column with the primary schema. -/
def inferredJoinColumns (st : FrontendState) : List (String × String) :=
  if st.secondaryTableNames.isEmpty then []
  else
    match st.allTableSchemas.find? (fun s => s.tableName == st.tableName) with
    | none => []
    | some pSchema =>
      st.secondaryTableNames.filterMap (fun sTable =>
        match st.allTableSchemas.find? (fun s => s.tableName == sTable) with
        | none => none
        | some sSchema => (inferJoin pSchema sSchema).map (fun k => (sTable, k)))

/-- The alias map of part_006 lines 131-136 (and part_002 lines 62-69):
`t2, t3, ...` assigned to secondary tables in declaration order. -/
def tableAliases (secondaryTableNames : List String) : List (String × String) :=
  secondaryTableNames.enum.map (fun p => (p.2, "t" ++ toString (p.1 + 2)))

/-- Lookup in the alias record; with duplicate table names the later
assignment wins, as for a JavaScript object. -/
def aliasFor (secondaryTableNames : List String) (t : String) : Option String :=
  (tableAliases secondaryTableNames).reverse.lookup t

/-- Interpolating `${alias}` in a template literal: `undefined` when the
record has no entry. -/
def aliasStr (secondaryTableNames : List String) (t : String) : String :=
  match aliasFor secondaryTableNames t with
  | some a => a
  | none => "undefined"

/-- `qual` of part_006 lines 140-146: a column whose `tableName` differs
from the primary table is qualified with the secondary alias when any
secondary table is selected, otherwise with `t1`. -/
def qual (st : FrontendState) (col : DatabaseColumn) : String :=
  if st.secondaryTableNames.length > 0 && col.tableName != st.tableName then
    aliasStr st.secondaryTableNames col.tableName ++ "." ++ quoted col.key
  else "t1." ++ quoted col.key

/-- The aggregation chosen for one y column (part_006 lines 163-164 and
216-217): `COUNT` for columns normalizing to `string`, the user-selected
aggregation otherwise. -/
def aggForColumn (aggregationType : String) (col : DatabaseColumn) : String :=
  if normalizeType col.type == "string" then "COUNT" else aggregationType

/-- The y-axis SELECT parts of part_006 lines 162-166. -/
def ySelectParts (st : FrontendState) : List String :=
  st.yAxisColumns.map (fun col =>
    aggForColumn st.aggregationType col ++ "(" ++ qual st col ++ ") AS " ++ quoted col.key)

/-- The INNER JOIN text emitted for one successfully-joined secondary
table (part_006 line 176). -/
def joinChunk (st : FrontendState) (t : String) (joinCol : String) : String :=
  "\nINNER JOIN " ++ quoted t ++ " AS " ++ aliasStr st.secondaryTableNames t ++
    " ON t1." ++ quoted joinCol ++ " = " ++ aliasStr st.secondaryTableNames t ++ "." ++
    quoted joinCol

/-- One iteration of the join loop of part_006 lines 172-178: append the
INNER JOIN text when the table has an inferred join column, leave the
query unchanged otherwise. -/
def joinStep (st : FrontendState) (sql : String) (t : String) : String :=
  match (inferredJoinColumns st).lookup t with
  | some joinCol => sql ++ joinChunk st t joinCol
  | none => sql

/-- The join loop of part_006 lines 172-178: tables without an inferred
join column are skipped. -/
def joinClauses (st : FrontendState) : String :=
  st.secondaryTableNames.foldl (joinStep st) ""

/-- `constructSqlQuery` of part_006 lines 128-185: empty when x-axis or
y-axes are unset; otherwise SELECT list (x as `name`, optional group-by,
aggregated y columns), FROM with `t1`, the join loop, and GROUP BY /
ORDER BY over the x and group-by columns. -/
def constructSqlQuery (st : FrontendState) : String :=
  match st.xAxisColumn with
  | none => ""
  | some x =>
    if st.yAxisColumns.isEmpty then ""
    else
      let gbSel : List String :=
        match effectiveGroupByColumn st with
        | some g => [qual st g]
        | none => []
      let sel := (qual st x ++ " AS name") :: (gbSel ++ ySelectParts st)
      let grp := qual st x :: gbSel
      let base := "SELECT " ++ String.intercalate ", " sel ++ "\nFROM " ++
        quoted st.tableName ++ " AS t1"
      base ++ joinClauses st ++ "\nGROUP BY " ++ String.intercalate ", " grp ++
        "\nORDER BY " ++ String.intercalate ", " grp

/-- The `aggTypes` array of part_006 lines 216-218. -/
def aggTypesForRequest (st : FrontendState) : List String :=
  st.yAxisColumns.map (aggForColumn st.aggregationType)

/-! ## Backend aggregate route (src/unnamed/part_002) -/

/-- A filter as received by the part_002 router:
`{ key, tableName, operator, value }`. -/
structure Filter2 where
  key : String
  tableName : String
  operator : String
  value : FilterVal
deriving DecidableEq, Repr

/-- An aggregation request as destructured by the part_002 router (with
the defaults `filters = []`, `secondaryTableNames = []`,
`joinColumns = ` empty record). -/
structure Req2 where
  tableName : String
  xAxis : AggColumn
  yAxes : List AggColumn
  groupBy : Option AggColumn
  aggregationTypes : List String
  filters : List Filter2
  secondaryTableNames : List String
  joinColumns : List (String × String)
deriving DecidableEq, Repr

/-- `getQualifiedColumn` of part_002 lines 73-79.  The destructured
parameter `tableName` shadows the outer primary table name, so the test
`tableName === tableName` compares the argument's field with itself and
always succeeds: every valid column is qualified with the primary alias
and the `Missing alias` branch below it is unreachable. -/
def getQualifiedColumn2 (secondaryTableNames : List String) (col : AggColumn) :
    Except String String :=
  if col.key == "" || col.tableName == "" then .error "Invalid column object"
  else if col.tableName == col.tableName then .ok ("t1." ++ quoted col.key)
  else
    match aliasFor secondaryTableNames col.tableName with
    | some a => .ok (a ++ "." ++ quoted col.key)
    | none => .error ("Missing alias for table: " ++ col.tableName)

/-- The allow-list of part_002 line 98. -/
def allowedAggs : List String := ["SUM", "COUNT", "AVG", "MIN", "MAX"]

/-- The group-by SELECT / GROUP BY contribution of part_002 lines 90-95:
only when a group-by is present and its key differs from the x-axis key. -/
def gbParts (req : Req2) : Except String (List String × List String) :=
  match req.groupBy with
  | some g =>
    if g.key != req.xAxis.key then
      match getQualifiedColumn2 req.secondaryTableNames g with
      | .error e => .error e
      | .ok gCol => .ok ([gCol ++ " AS " ++ quoted g.key], [gCol])
    else .ok ([], [])
  | none => .ok ([], [])

/-- The y-axis loop of part_002 lines 100-109: uppercase the requested
aggregation, reject it unless allow-listed, and emit
`CAST(<AGG>(<qualified>) AS BIGINT) AS <quotedKey>`. -/
def ySelect2 (secondaryTableNames : List String) :
    List (AggColumn × String) → Except String (List String)
  | [] => .ok []
  | (col, aggType) :: rest =>
    let agg := jsToUpper aggType
    if !(allowedAggs.contains agg) then .error ("Invalid aggregation type: " ++ agg)
    else
      match getQualifiedColumn2 secondaryTableNames col with
      | .error e => .error e
      | .ok q =>
        match ySelect2 secondaryTableNames rest with
        | .error e => .error e
        | .ok qs => .ok (("CAST(" ++ agg ++ "(" ++ q ++ ") AS BIGINT) AS " ++
            quoted col.key) :: qs)

/-- The join loop of part_002 lines 116-125, which throws
`Missing join column for table <t>` when the record has no (truthy) entry
for a named secondary table. -/
def joins2Aux (allSecondaries : List String) (joinColumns : List (String × String)) :
    List String → String → Except String String
  | [], sql => .ok sql
  | t :: ts, sql =>
    let tAlias := aliasStr allSecondaries t
    match joinColumns.lookup t with
    | none => .error ("Missing join column for table " ++ t)
    | some joinCol =>
      if joinCol == "" then .error ("Missing join column for table " ++ t)
      else joins2Aux allSecondaries joinColumns ts
        (sql ++ " INNER JOIN " ++ quoted t ++ " AS " ++ tAlias ++ " ON t1." ++
          quoted joinCol ++ " = " ++ tAlias ++ "." ++ quoted joinCol)

/-- The accumulated INNER JOIN text of part_002 lines 116-125. -/
def joins2 (secondaryTableNames : List String) (joinColumns : List (String × String)) :
    Except String String :=
  joins2Aux secondaryTableNames joinColumns secondaryTableNames ""

/-- The WHERE construction of part_002 lines 128-136: each filter is
qualified through `getQualifiedColumn`, its value pushed, and the clause
numbered by the new parameter-list length. -/
def where2Aux (secondaryTableNames : List String) :
    List Filter2 → List String → List ParamVal →
    Except String (List String × List ParamVal)
  | [], cs, ps => .ok (cs, ps)
  | f :: fs, cs, ps =>
    match getQualifiedColumn2 secondaryTableNames ⟨f.key, f.tableName⟩ with
    | .error e => .error e
    | .ok q =>
      let qp := ps ++ [ParamVal.val f.value]
      where2Aux secondaryTableNames fs
        (cs ++ [q ++ " " ++ f.operator ++ " $" ++ toString qp.length]) qp

/-- The part_002 `/aggregate` body (lines 29-153) up to query execution:
validation, SELECT list, FROM/JOIN, WHERE, GROUP BY and ORDER BY,
returning the SQL text and parameter list, or the thrown error message. -/
def aggregate2 (req : Req2) : Except String (String × List ParamVal) :=
  if req.tableName == "" || req.xAxis.key == "" || req.xAxis.tableName == "" ||
      req.yAxes.isEmpty || req.aggregationTypes.length != req.yAxes.length then
    .error "Missing or invalid parameters"
  else if req.yAxes.any (fun c => c.key == "" || c.tableName == "") then
    .error "Invalid yAxis column"
  else if (match req.groupBy with
           | some g => g.key == "" || g.tableName == ""
           | none => false) then
    .error "Invalid groupBy column"
  else
    match getQualifiedColumn2 req.secondaryTableNames req.xAxis with
    | .error e => .error e
    | .ok xCol =>
      match gbParts req with
      | .error e => .error e
      | .ok gb =>
        match ySelect2 req.secondaryTableNames (req.yAxes.zip req.aggregationTypes) with
        | .error e => .error e
        | .ok ySel =>
          match joins2 req.secondaryTableNames req.joinColumns with
          | .error e => .error e
          | .ok joinSql =>
            match where2Aux req.secondaryTableNames req.filters [] [] with
            | .error e => .error e
            | .ok wp =>
              let selectParts := (xCol ++ " AS name") :: (gb.1 ++ ySel)
              let groupByParts := xCol :: gb.2
              let base := "SELECT " ++ String.intercalate ", " selectParts ++ " FROM " ++
                quoted req.tableName ++ " AS t1" ++ joinSql
              let withWhere :=
                if req.filters.length > 0 then
                  base ++ " WHERE " ++ String.intercalate " AND " wp.1
                else base
              .ok (withWhere ++ " GROUP BY " ++ String.intercalate ", " groupByParts ++
                " ORDER BY " ++ String.intercalate ", " groupByParts, wp.2)

/-- The aggregation request posted by the part_006 fetch effect
(lines 197-243): x, y and effective group-by column references, the
per-column aggregation array, the full secondary table list and the
inferred join-column record; no filters are sent. -/
def buildRequest (st : FrontendState) : Option Req2 :=
  match st.xAxisColumn with
  | none => none
  | some x =>
    if st.yAxisColumns.isEmpty then none
    else some {
      tableName := st.tableName
      xAxis := { key := x.key, tableName := x.tableName }
      yAxes := st.yAxisColumns.map (fun col => { key := col.key, tableName := col.tableName })
      groupBy := (effectiveGroupByColumn st).map
        (fun g => { key := g.key, tableName := g.tableName })
      aggregationTypes := aggTypesForRequest st
      filters := []
      secondaryTableNames := st.secondaryTableNames
      joinColumns := inferredJoinColumns st }

/-! ## Theorems for the SQL generator -/

/-- C7: a y column whose type normalizes to `string` is aggregated with
COUNT in both the SELECT list and the request's aggregation array, for
every user-selected aggregation; a `number` column uses the user-selected
aggregation. -/
theorem string_column_count_override (st : FrontendState) (i : Nat)
    (hy : i < st.yAxisColumns.length)
    (ha : i < (aggTypesForRequest st).length)
    (hs : i < (ySelectParts st).length) :
    ((aggTypesForRequest st).get ⟨i, ha⟩ =
      aggForColumn st.aggregationType (st.yAxisColumns.get ⟨i, hy⟩))
  ∧ (normalizeType (st.yAxisColumns.get ⟨i, hy⟩).type = "string" →
      (aggTypesForRequest st).get ⟨i, ha⟩ = "COUNT" ∧
      (ySelectParts st).get ⟨i, hs⟩ =
        "COUNT(" ++ qual st (st.yAxisColumns.get ⟨i, hy⟩) ++ ") AS " ++
          quoted (st.yAxisColumns.get ⟨i, hy⟩).key)
  ∧ (normalizeType (st.yAxisColumns.get ⟨i, hy⟩).type = "number" →
      (aggTypesForRequest st).get ⟨i, ha⟩ = st.aggregationType) := by
  have h1 : (aggTypesForRequest st).get ⟨i, ha⟩ =
      aggForColumn st.aggregationType (st.yAxisColumns.get ⟨i, hy⟩) := by
    simp [aggTypesForRequest, List.get_eq_getElem, List.getElem_map]
  have h2 : (ySelectParts st).get ⟨i, hs⟩ =
      aggForColumn st.aggregationType (st.yAxisColumns.get ⟨i, hy⟩) ++ "(" ++
        qual st (st.yAxisColumns.get ⟨i, hy⟩) ++ ") AS " ++
        quoted (st.yAxisColumns.get ⟨i, hy⟩).key := by
    simp [ySelectParts, List.get_eq_getElem, List.getElem_map]
  refine ⟨h1, ?_, ?_⟩
  · intro hstr
    have hstr' : (normalizeType (st.yAxisColumns.get ⟨i, hy⟩).type == "string") = true := by
      simp only [beq_iff_eq]; exact hstr
    constructor
    · rw [h1, aggForColumn, if_pos hstr']
    · rw [h2, aggForColumn, if_pos hstr']
      rfl
  · intro hnum
    have hnum' : ¬(normalizeType (st.yAxisColumns.get ⟨i, hy⟩).type == "string") = true := by
      simp only [beq_iff_eq, hnum]
      decide
    rw [h1, aggForColumn, if_neg hnum']

/-- Selection state for the C7 witness: one `varchar` y column and one
`integer` y column under a SUM selection. -/
def witnessState : FrontendState where
  tableName := "users"
  secondaryTableNames := []
  allTableSchemas := []
  xAxisColumn := some ⟨"city", "users", "text"⟩
  yAxisColumns := [⟨"name", "users", "varchar"⟩, ⟨"salary", "users", "integer"⟩]
  groupByColumn := none
  aggregationType := "SUM"

/-- Witness for C7: the `varchar` column is counted, the `integer` column
is summed. -/
theorem string_column_count_override_witness :
    (aggTypesForRequest witnessState).get ⟨0, by decide⟩ = "COUNT"
  ∧ (aggTypesForRequest witnessState).get ⟨1, by decide⟩ = "SUM" := by
  constructor
  · exact ((string_column_count_override witnessState 0 (by decide) (by decide)
      (by decide)).2.1 (by decide)).1
  · exact (string_column_count_override witnessState 1 (by decide) (by decide)
      (by decide)).2.2 (by decide)

/-- The group-by contribution of the part_002 SELECT list is dropped when
the group-by key equals the x-axis key. -/
lemma gbParts_dedup (req : Req2) (g : AggColumn) (hkey : g.key = req.xAxis.key) :
    gbParts { req with groupBy := some g } = gbParts { req with groupBy := none } := by
  simp [gbParts, hkey]

/-- C6: a request whose group-by key equals the x-axis key generates
exactly what the same request with no group-by generates: the backend
produces identical SQL text and parameter list, and the frontend produces
an identical SQL preview and an identical aggregation request. -/
theorem groupby_dedup_idempotent :
    (∀ (req : Req2) (g : AggColumn), g.key = req.xAxis.key → g.tableName ≠ "" →
      aggregate2 { req with groupBy := some g } = aggregate2 { req with groupBy := none })
  ∧ (∀ (st : FrontendState) (x g : DatabaseColumn),
      st.xAxisColumn = some x → g.key = x.key →
      constructSqlQuery { st with groupByColumn := some g } =
        constructSqlQuery { st with groupByColumn := none } ∧
      buildRequest { st with groupByColumn := some g } =
        buildRequest { st with groupByColumn := none }) := by
  constructor
  · intro req g hkey htn
    have hg := gbParts_dedup req g hkey
    rw [aggregate2, aggregate2, hg]
    by_cases h1 : (req.tableName == "" || req.xAxis.key == "" || req.xAxis.tableName == "" ||
        req.yAxes.isEmpty || req.aggregationTypes.length != req.yAxes.length) = true
    · simp [h1]
    · have hx : ¬(req.xAxis.key = "") := by
        intro hx
        exact h1 (by simp [hx])
      have hgk : (g.key == "" || g.tableName == "") = false := by
        have hk : g.key ≠ "" := by rw [hkey]; exact hx
        simp [hk, htn]
      simp [h1, hgk]
  · intro st x g hx hgk
    have he : effectiveGroupByColumn { st with groupByColumn := some g } =
        effectiveGroupByColumn { st with groupByColumn := none } := by
      simp [effectiveGroupByColumn, hx, hgk]
    constructor
    · unfold constructSqlQuery
      rw [he]
      exact rfl
    · unfold buildRequest
      rw [he]
      exact rfl

/-- Request for the C6 witness. -/
def witnessReq : Req2 where
  tableName := "users"
  xAxis := ⟨"city", "users"⟩
  yAxes := [⟨"salary", "users"⟩]
  groupBy := none
  aggregationTypes := ["SUM"]
  filters := []
  secondaryTableNames := []
  joinColumns := []

/-- Witness for C6: a concrete request and selection state in which the
group-by column repeats the x-axis key. -/
theorem groupby_dedup_idempotent_witness :
    aggregate2 { witnessReq with groupBy := some ⟨"city", "users"⟩ } =
      aggregate2 { witnessReq with groupBy := none }
  ∧ constructSqlQuery { witnessState with groupByColumn := some ⟨"city", "users", "text"⟩ } =
      constructSqlQuery { witnessState with groupByColumn := none } := by
  constructor
  · exact groupby_dedup_idempotent.1 witnessReq ⟨"city", "users"⟩ rfl (by decide)
  · exact (groupby_dedup_idempotent.2 witnessState ⟨"city", "users", "text"⟩
      ⟨"city", "users", "text"⟩ rfl rfl).1

/-- C1 (code bug): because `getQualifiedColumn` of part_002 compares the
destructured `tableName` with itself, a column belonging to a secondary
table is qualified with the primary alias `t1` even though the alias map
assigns `t2` to that table, and a column naming an unknown table is
qualified with `t1` instead of raising the `Missing alias` error. -/
theorem qualified_column_always_primary_alias :
    getQualifiedColumn2 ["orders"] ⟨"total", "orders"⟩ = .ok ("t1." ++ quoted "total")
  ∧ aliasFor ["orders"] "orders" = some "t2"
  ∧ getQualifiedColumn2 ["orders"] ⟨"x", "no_such_table"⟩ = .ok ("t1." ++ quoted "x") :=
  ⟨rfl, rfl, rfl⟩

/-- Selection state for the C2 counterexample: one secondary table whose
schema shares no name+type-matching column with the primary schema. -/
def c2State : FrontendState where
  tableName := "users"
  secondaryTableNames := ["orders"]
  allTableSchemas := [⟨"users", [⟨"id", "integer"⟩]⟩, ⟨"orders", [⟨"total", "numeric"⟩]⟩]
  xAxisColumn := some ⟨"id", "users", "integer"⟩
  yAxisColumns := [⟨"total", "orders", "numeric"⟩]
  groupByColumn := none
  aggregationType := "SUM"

/-- The request the part_006 effect posts for `c2State`: the un-joinable
secondary table stays in `secondaryTableNames` while `joinColumns` has no
entry for it. -/
def c2Request : Req2 where
  tableName := "users"
  xAxis := ⟨"id", "users"⟩
  yAxes := [⟨"total", "orders"⟩]
  groupBy := none
  aggregationTypes := ["SUM"]
  filters := []
  secondaryTableNames := ["orders"]
  joinColumns := []

/-- Counterexample for C2: when no join column is inferable for a named
secondary table, the frontend still sends the table, and the backend
rejects the whole request with `Missing join column` instead of running a
query without the join. -/
theorem joinless_secondary_fails_request :
    buildRequest c2State = some c2Request
  ∧ aggregate2 c2Request = .error "Missing join column for table orders" :=
  ⟨rfl, rfl⟩

/-- The join fold of part_006 only ever consumes the tables that have an
inferred join column. -/
lemma joinClauses_filter (st : FrontendState) (l : List String) (acc : String) :
    l.foldl (joinStep st) acc =
      (l.filter (fun u => ((inferredJoinColumns st).lookup u).isSome)).foldl
        (joinStep st) acc := by
  induction l generalizing acc with
  | nil => rfl
  | cons t ts ih =>
    cases h : (inferredJoinColumns st).lookup t with
    | some jc =>
      simp only [List.foldl_cons, List.filter_cons, h, Option.isSome_some, if_true]
      exact ih _
    | none =>
      simp only [List.foldl_cons, List.filter_cons, h, Option.isSome_none, Bool.false_eq_true,
        if_false, joinStep, h]
      exact ih _

/-- The part_002 join loop throws whenever some listed secondary table has
no (truthy) entry in the join-column record. -/
lemma joins2Aux_error (allSec : List String) (joinCols : List (String × String))
    (l : List String) (sql : String) (t : String) (ht : t ∈ l)
    (hmiss : joinCols.lookup t = none) :
    ∃ u, joins2Aux allSec joinCols l sql = .error ("Missing join column for table " ++ u) := by
  induction l generalizing sql with
  | nil => cases ht
  | cons v ts ih =>
    cases hv : joinCols.lookup v with
    | none => exact ⟨v, by simp [joins2Aux, hv]⟩
    | some jc =>
      by_cases hjc : jc == ""
      · exact ⟨v, by simp [joins2Aux, hv, hjc]⟩
      · have htts : t ∈ ts := by
          rcases List.mem_cons.mp ht with h | h
          · exact absurd hmiss (by rw [h, hv]; simp)
          · exact h
        have h9 := ih (sql ++ " INNER JOIN " ++ quoted v ++ " AS " ++
          aliasStr allSec v ++ " ON t1." ++ quoted jc ++ " = " ++ aliasStr allSec v ++
          "." ++ quoted jc) htts
        simpa [joins2Aux, hv, hjc] using h9

/-- C2 (amended): the frontend SQL preview omits the INNER JOIN for a
secondary table with no inferred join column and still builds its query
from the successfully-joined tables only; but the backend route fails the
whole request with a `Missing join column` error whenever a named
secondary table has no join-column entry, so the pipeline does not run a
join-less query. -/
theorem joinless_secondary_preview_skips_backend_errors :
    (∀ st : FrontendState, joinClauses st =
      (st.secondaryTableNames.filter
        (fun u => ((inferredJoinColumns st).lookup u).isSome)).foldl (joinStep st) "")
  ∧ (∀ (secondaries : List String) (joinCols : List (String × String)) (t : String),
      t ∈ secondaries → joinCols.lookup t = none →
      ∃ u, joins2 secondaries joinCols = .error ("Missing join column for table " ++ u))
  ∧ (∀ (req : Req2) (t : String), t ∈ req.secondaryTableNames →
      req.joinColumns.lookup t = none →
      ∀ out, aggregate2 req ≠ .ok out) := by
  refine ⟨?_, ?_, ?_⟩
  · intro st
    exact joinClauses_filter st st.secondaryTableNames ""
  · intro secondaries joinCols t ht hmiss
    exact joins2Aux_error secondaries joinCols secondaries "" t ht hmiss
  · intro req t ht hmiss out hok
    obtain ⟨u, hu⟩ := joins2Aux_error req.secondaryTableNames req.joinColumns
      req.secondaryTableNames "" t ht hmiss
    rw [aggregate2] at hok
    split at hok
    · exact absurd hok (by simp)
    · split at hok
      · exact absurd hok (by simp)
      · split at hok
        · exact absurd hok (by simp)
        · split at hok
          · exact absurd hok (by simp)
          · split at hok
            · exact absurd hok (by simp)
            · split at hok
              · exact absurd hok (by simp)
              · split at hok
                · exact absurd hok (by simp)
                · rename_i joinSql hjoin
                  have hjoin2 : joins2Aux req.secondaryTableNames req.joinColumns
                      req.secondaryTableNames "" = .ok joinSql := hjoin
                  rw [hu] at hjoin2
                  exact absurd hjoin2 (by simp)

/-- Witness for C2 (amended), at the concrete un-joinable state and
request of the counterexample. -/
theorem joinless_secondary_preview_skips_backend_errors_witness :
    joinClauses c2State =
      (c2State.secondaryTableNames.filter
        (fun u => ((inferredJoinColumns c2State).lookup u).isSome)).foldl
        (joinStep c2State) ""
  ∧ (∃ u, joins2 c2Request.secondaryTableNames c2Request.joinColumns =
      .error ("Missing join column for table " ++ u))
  ∧ (∀ out, aggregate2 c2Request ≠ .ok out) := by
  refine ⟨joinless_secondary_preview_skips_backend_errors.1 c2State, ?_, ?_⟩
  · exact joinless_secondary_preview_skips_backend_errors.2.1
      c2Request.secondaryTableNames c2Request.joinColumns "orders" (by decide) rfl
  · exact joinless_secondary_preview_skips_backend_errors.2.2 c2Request "orders"
      (by decide) rfl

/-! ## Result reshaper (src/unnamed/part_006 lines 245-302) -/

/-- A JavaScript value appearing in a result row or a pivot-entry
property. -/
inductive JVal where
  | vnull
  | vnum (n : Int)
  | vstr (s : String)
deriving DecidableEq, Repr

/-- A grouped result row, restricted to the three fields the handler reads:
`row.name`, `row[effectiveGroupByColumn.key]` and
`row[yAxisColumns[0].key]` (`none` models SQL NULL). -/
structure RRow where
  name : JVal
  group : String
  y : Option Int
deriving DecidableEq, Repr

/-- A pivot entry is a plain JavaScript object: an insertion-ordered list
of own properties.  `name` is an ordinary property in the same namespace
as the group-value keys, so `entry[g] = y` with `g = "name"` overwrites
it, exactly as in the source. -/
abbrev JObj := List (String × JVal)

/-- Property read `e[k]`: `none` models `undefined`. -/
def getProp (e : JObj) (k : String) : Option JVal := e.lookup k

/-- Property write `e[k] = v`: overwrite an existing key in place, append
a missing one. -/
def setProp : JObj → String → JVal → JObj
  | [], k, v => [(k, v)]
  | (k2, v2) :: fs, k, v =>
    if k2 == k then (k, v) :: fs else (k2, v2) :: setProp fs k v

/-- JavaScript `e.name === x` for a definite value `x`: `undefined`
(absent property) equals nothing, present values compare by value. -/
def propEq (v : Option JVal) (x : JVal) : Bool :=
  match v with
  | some w => w == x
  | none => false

/-- The value `row[yAxisColumns[0].key]` as stored by `entry[g] = y`
(SQL NULL arrives as JavaScript null). -/
def yJVal : Option Int → JVal
  | none => .vnull
  | some n => .vnum n

/-- Mutate the first entry whose `name` property equals `x` — the entry
`pivot.find` returns. -/
def updateFirstObj : List JObj → JVal → String → JVal → List JObj
  | [], _, _, _ => []
  | e :: es, x, g, y =>
    if propEq (getProp e "name") x then setProp e g y :: es
    else e :: updateFirstObj es x g y

/-- One iteration of the pivot loop of part_006 lines 253-263: look up the
entry whose `name` equals the row's name, create `{ name: x }` and push it
when absent, then set `entry[g] = y` — into the same property namespace as
`name`. -/
def pivotStep (acc : List JObj) (row : RRow) : List JObj :=
  if acc.any (fun e => propEq (getProp e "name") row.name) then
    updateFirstObj acc row.name row.group (yJVal row.y)
  else acc ++ [setProp [("name", row.name)] row.group (yJVal row.y)]

/-- The pivot array after the `resp.data.forEach` of lines 253-263. -/
def pivotOf (rows : List RRow) : List JObj := rows.foldl pivotStep []

/-- `Array.from(new Set(l))` relative to already-seen values: keep first
occurrences, in insertion order. -/
def dedupNew {α : Type} [DecidableEq α] (seen : List α) : List α → List α
  | [] => []
  | x :: xs => if x ∈ seen then dedupNew seen xs else x :: dedupNew (seen ++ [x]) xs

/-- `groupKeys` of part_006 lines 266-269. -/
def groupKeysOf (rows : List RRow) : List String :=
  dedupNew [] (rows.map (fun r => r.group))

/-- JavaScript truthiness of a value in our space. -/
def jsTruthy : JVal → Bool
  | .vnull => false
  | .vnum n => n != 0
  | .vstr s => s != ""

/-- JavaScript `(a[g] || 0)`: the property value when truthy, the number 0
for an absent key, null, 0 or the empty string. -/
def jsOrZero : Option JVal → JVal
  | some w => if jsTruthy w then w else .vnum 0
  | none => .vnum 0

/-- A JavaScript `+` accumulator: stays a number until a string operand
switches it to string concatenation. -/
inductive JSAcc where
  | num (n : Int)
  | str (s : String)
deriving DecidableEq, Repr

/-- JavaScript `acc + v` on our value space: number addition, or string
concatenation with number-to-string (and null-to-\"null\") coercion once a
string is involved. -/
def jsPlus : JSAcc → JVal → JSAcc
  | .num a, .vnum b => .num (a + b)
  | .num a, .vstr b => .str (toString a ++ b)
  | .num a, .vnull => .num a
  | .str a, .vnum b => .str (a ++ toString b)
  | .str a, .vstr b => .str (a ++ b)
  | .str a, .vnull => .str (a ++ "null")

/-- The per-row reduce of part_006 lines 272-273:
`groupKeys.reduce((acc, g) => acc + (a[g] || 0), 0)`.  When a group value
equals `"name"`, `a["name"]` reads the entry's (string) name and the sum
degenerates to string concatenation, which `jsPlus` models. -/
def rowSumAcc (ks : List String) (e : JObj) : JSAcc :=
  ks.foldl (fun acc g => jsPlus acc (jsOrZero (getProp e g))) (.num 0)

/-- ToNumber on one of our strings, as applied by the comparator's
subtraction: the empty string is 0, an optionally-signed digit string is
its value, anything else is NaN (`none`). -/
def jsStrToNumber (s : String) : Option Int :=
  if s = "" then some 0
  else
    let cs := s.toList
    let signRest : Bool × List Char :=
      match cs with
      | '-' :: r => (true, r)
      | '+' :: r => (false, r)
      | r => (false, r)
    if signRest.2 ≠ [] ∧ signRest.2.all Char.isDigit then
      let n : Nat := signRest.2.foldl (fun acc c => acc * 10 + (c.toNat - '0'.toNat)) 0
      some (if signRest.1 then -(n : Int) else (n : Int))
    else none

/-- ToNumber of an accumulated sum; `none` models NaN. -/
def accToNumber : JSAcc → Option Int
  | .num n => some n
  | .str s => jsStrToNumber s

/-- The comparator of part_006 line 274 under the ECMAScript SortCompare:
`sumB - sumA` with ToNumber coercion of the operands, and a NaN result
clamped to +0 (a tie). -/
def sortCmp (ks : List String) (a b : JObj) : Int :=
  match accToNumber (rowSumAcc ks b), accToNumber (rowSumAcc ks a) with
  | some sb, some sa => sb - sa
  | _, _ => 0

/-- The numeric reading of an entry's group-value property, for stating
the sort order: a number counts as itself, anything else as 0. -/
def numOrZero : Option JVal → Int
  | some (.vnum n) => n
  | _ => 0

/-- The per-row group-value sum as an integer, missing values counting
as 0. -/
def rowSumInt (ks : List String) (e : JObj) : Int :=
  ks.foldl (fun acc g => acc + numOrZero (getProp e g)) 0

/-- The grouped branch of the reshaper (lines 251-275): pivot, then sort
by the comparator `sumB - sumA`.  `Array.prototype.sort` is stable
(ES2019) and SortCompare clamps NaN to a tie; the stable `insertionSort`
with the relation `sortCmp ≤ 0` models it — whenever the comparator is
consistent (all sums numeric) this is the unique stable descending order,
and the theorems below use it only then. -/
def reshapeGrouped (rows : List RRow) : List JObj :=
  List.insertionSort (fun a b => sortCmp (groupKeysOf rows) a b ≤ 0) (pivotOf rows)

/-- An ungrouped result row, restricted to the fields the sort reads. -/
structure URow where
  name : JVal
  y : Option Int
deriving DecidableEq, Repr

/-- `Number(a[yKey]) || 0` of lines 281-282 (`Number(null) = 0`,
`Number(undefined) = NaN`, and `NaN || 0 = 0`). -/
def numOr0 : Option Int → Int
  | some n => n
  | none => 0

/-- The ungrouped branch of the reshaper (lines 276-286): rows pass
through unchanged except for a stable descending sort by the first Y
value (the effect only fetches when a y column is selected, so the
`yAxisColumns.length > 0` guard always holds there). -/
def reshapeUngrouped (rows : List URow) : List URow :=
  if rows.length > 0 then
    List.insertionSort (fun a b => numOr0 b.y ≤ numOr0 a.y) rows
  else rows

/-- The value stored for x value `x` and group key `q` in the pivot list:
property `q` of the first entry whose `name` property equals `x`. -/
def fieldAt (P : List JObj) (x : JVal) (q : String) : Option JVal :=
  match P.find? (fun e => propEq (getProp e "name") x) with
  | some e => getProp e q
  | none => none

/-- Looking up after a property write: the written key reads the new
value, other keys are unaffected. -/
lemma lookup_setProp (fs : JObj) (g : String) (y : JVal) (q : String) :
    (setProp fs g y).lookup q = if q = g then some y else fs.lookup q := by
  induction fs with
  | nil =>
    by_cases hq : q = g
    · simp [setProp, List.lookup_cons, hq]
    · simp [setProp, List.lookup_cons, beq_eq_false_iff_ne.mpr hq, hq]
  | cons kv fs ih =>
    obtain ⟨k, v⟩ := kv
    by_cases hk : k = g
    · rw [setProp, if_pos (by simpa using hk)]
      by_cases hq : q = g
      · simp [List.lookup_cons, hq]
      · have hqk : ¬q = k := fun hcon => hq (hcon.trans hk)
        simp [List.lookup_cons, beq_eq_false_iff_ne.mpr hq, beq_eq_false_iff_ne.mpr hqk, hq]
    · rw [setProp, if_neg (by simpa using hk)]
      by_cases hq : q = k
      · have hqg : ¬q = g := fun hcon => hk (hq.symm.trans hcon)
        simp [List.lookup_cons, hq, hqg, hk]
      · simp [List.lookup_cons, beq_eq_false_iff_ne.mpr hq, ih]

/-- `e.name === x` holds exactly when the name property is present and
equals `x`. -/
lemma propEq_eq_true_iff (v : Option JVal) (x : JVal) :
    propEq v x = true ↔ v = some x := by
  cases v with
  | none => simp [propEq]
  | some w => simp [propEq]

/-- Writing any key other than `"name"` leaves the name property alone. -/
lemma getProp_setProp_name (e : JObj) (g : String) (y : JVal) (hg : g ≠ "name") :
    getProp (setProp e g y) "name" = getProp e "name" := by
  rw [getProp, lookup_setProp, if_neg (fun hcon => hg hcon.symm), getProp]

/-- Creating `{ name: x }` and then setting a non-`"name"` key appends the
key after `name`. -/
lemma setProp_new (x : JVal) (g : String) (y : JVal) (hg : g ≠ "name") :
    setProp [("name", x)] g y = [("name", x), (g, y)] := by
  rw [setProp, if_neg (by simpa using fun hcon => hg (Eq.symm hcon))]
  rfl

/-- Updating an entry under a non-`"name"` key does not change the list
of name properties. -/
lemma names_updateFirstObj (P : List JObj) (n : JVal) (g : String) (y : JVal)
    (hg : g ≠ "name") :
    (updateFirstObj P n g y).map (fun e => getProp e "name") =
      P.map (fun e => getProp e "name") := by
  induction P with
  | nil => rfl
  | cons e es ih =>
    by_cases he : propEq (getProp e "name") n = true
    · simp [updateFirstObj, he, getProp_setProp_name e g y hg]
    · simp [updateFirstObj, he, ih]

/-- `fieldAt` for a name other than the updated one is unaffected (the
update writes a non-`"name"` key, so match status is preserved). -/
lemma fieldAt_updateFirstObj_other (P : List JObj) (n x : JVal) (g : String)
    (y : JVal) (q : String) (hx : x ≠ n) (hg : g ≠ "name") :
    fieldAt (updateFirstObj P n g y) x q = fieldAt P x q := by
  induction P with
  | nil => rfl
  | cons e es ih =>
    by_cases he : propEq (getProp e "name") n = true
    · have hex : ¬propEq (getProp e "name") x = true := by
        rw [propEq_eq_true_iff] at he ⊢
        rw [he]
        intro hcon
        exact hx (Option.some.inj hcon).symm
      have hex2 : ¬propEq (getProp (setProp e g y) "name") x = true := by
        rw [getProp_setProp_name e g y hg]
        exact hex
      have h1 : List.find? (fun e2 => propEq (getProp e2 "name") x)
          (setProp e g y :: es) =
          List.find? (fun e2 => propEq (getProp e2 "name") x) es :=
        List.find?_cons_of_neg _ hex2
      have h2 : List.find? (fun e2 => propEq (getProp e2 "name") x) (e :: es) =
          List.find? (fun e2 => propEq (getProp e2 "name") x) es :=
        List.find?_cons_of_neg _ hex
      rw [updateFirstObj, if_pos he, fieldAt, h1, fieldAt, h2]
    · rw [updateFirstObj, if_neg he]
      by_cases hex : propEq (getProp e "name") x = true
      · have h1 : List.find? (fun e2 => propEq (getProp e2 "name") x)
            (e :: updateFirstObj es n g y) = some e :=
          List.find?_cons_of_pos _ hex
        have h2 : List.find? (fun e2 => propEq (getProp e2 "name") x) (e :: es) =
            some e :=
          List.find?_cons_of_pos _ hex
        rw [fieldAt, h1, fieldAt, h2]
      · have h1 : List.find? (fun e2 => propEq (getProp e2 "name") x)
            (e :: updateFirstObj es n g y) =
            List.find? (fun e2 => propEq (getProp e2 "name") x) (updateFirstObj es n g y) :=
          List.find?_cons_of_neg _ hex
        have h2 : List.find? (fun e2 => propEq (getProp e2 "name") x) (e :: es) =
            List.find? (fun e2 => propEq (getProp e2 "name") x) es :=
          List.find?_cons_of_neg _ hex
        rw [fieldAt, h1, fieldAt, h2]
        exact ih

/-- `fieldAt` for the updated name: the written group key now reads the
new value, other keys read as before (the name must be present, as the
pivot loop guarantees before updating, and the written key is not
`"name"`). -/
lemma fieldAt_updateFirstObj_self (P : List JObj) (n : JVal) (g : String)
    (y : JVal) (q : String) (hg : g ≠ "name")
    (hmem : P.any (fun e => propEq (getProp e "name") n) = true) :
    fieldAt (updateFirstObj P n g y) n q = if q = g then some y else fieldAt P n q := by
  induction P with
  | nil => simp at hmem
  | cons e es ih =>
    by_cases he : propEq (getProp e "name") n = true
    · have he2 : propEq (getProp (setProp e g y) "name") n = true := by
        rw [getProp_setProp_name e g y hg]
        exact he
      have h1 : List.find? (fun e2 => propEq (getProp e2 "name") n)
          (setProp e g y :: es) = some (setProp e g y) :=
        List.find?_cons_of_pos _ he2
      have h2 : List.find? (fun e2 => propEq (getProp e2 "name") n) (e :: es) =
          some e :=
        List.find?_cons_of_pos _ he
      rw [updateFirstObj, if_pos he, fieldAt, h1, fieldAt, h2]
      exact lookup_setProp e g y q
    · have hmem2 : es.any (fun e => propEq (getProp e "name") n) = true := by
        simpa [List.any_cons, he] using hmem
      have h1 : List.find? (fun e2 => propEq (getProp e2 "name") n)
          (e :: updateFirstObj es n g y) =
          List.find? (fun e2 => propEq (getProp e2 "name") n) (updateFirstObj es n g y) :=
        List.find?_cons_of_neg _ he
      have h2 : List.find? (fun e2 => propEq (getProp e2 "name") n) (e :: es) =
          List.find? (fun e2 => propEq (getProp e2 "name") n) es :=
        List.find?_cons_of_neg _ he
      rw [updateFirstObj, if_neg he, fieldAt, h1, fieldAt, h2]
      exact ih hmem2

/-- Effect of one pivot iteration on the stored field values, for rows
whose group value is not the reserved key `"name"` and queried keys other
than `"name"`. -/
lemma fieldAt_pivotStep (P : List JObj) (r : RRow) (x : JVal) (q : String)
    (hg : r.group ≠ "name") (hq : q ≠ "name") :
    fieldAt (pivotStep P r) x q =
      if x = r.name ∧ q = r.group then some (yJVal r.y) else fieldAt P x q := by
  by_cases hmem : P.any (fun e => propEq (getProp e "name") r.name) = true
  · rw [pivotStep, if_pos hmem]
    by_cases hx : x = r.name
    · rw [hx, fieldAt_updateFirstObj_self P r.name r.group (yJVal r.y) q hg hmem]
      by_cases hq2 : q = r.group
      · rw [if_pos hq2, if_pos ⟨rfl, hq2⟩]
      · rw [if_neg hq2, if_neg (fun hcon => hq2 hcon.2)]
    · rw [fieldAt_updateFirstObj_other P r.name x r.group (yJVal r.y) q hx hg,
        if_neg (fun hcon => hx hcon.1)]
  · rw [pivotStep, if_neg hmem, setProp_new r.name r.group (yJVal r.y) hg,
      fieldAt, List.find?_append]
    cases hfind : P.find? (fun e => propEq (getProp e "name") x) with
    | some e =>
      have hx : ¬x = r.name := by
        intro hcon
        rw [hcon] at hfind
        have hpe := List.find?_some hfind
        have hme := List.mem_of_find?_eq_some hfind
        exact hmem (List.any_eq_true.mpr ⟨e, hme, hpe⟩)
      rw [if_neg (fun hcon => hx hcon.1), fieldAt, hfind]
      rfl
    | none =>
      rw [Option.none_or, fieldAt, hfind]
      have hname : getProp [("name", r.name), (r.group, yJVal r.y)] "name" =
          some r.name := by
        simp [getProp, List.lookup_cons]
      by_cases hx : x = r.name
      · rw [hx]
        have h1 : List.find? (fun e2 => propEq (getProp e2 "name") r.name)
            [[("name", r.name), (r.group, yJVal r.y)]] =
            some [("name", r.name), (r.group, yJVal r.y)] := by
          refine List.find?_cons_of_pos _ ?_
          rw [propEq_eq_true_iff]
          exact hname
        rw [h1]
        by_cases hq2 : q = r.group
        · rw [if_pos ⟨rfl, hq2⟩]
          simp [getProp, List.lookup_cons, beq_eq_false_iff_ne.mpr hq, hq2,
            beq_eq_false_iff_ne.mpr hg]
        · rw [if_neg (fun hcon => hq2 hcon.2)]
          simp [getProp, List.lookup_cons, beq_eq_false_iff_ne.mpr hq,
            beq_eq_false_iff_ne.mpr hq2]
      · have h1 : List.find? (fun e2 => propEq (getProp e2 "name") x)
            [[("name", r.name), (r.group, yJVal r.y)]] =
            List.find? (fun e2 => propEq (getProp e2 "name") x) [] := by
          refine List.find?_cons_of_neg _ ?_
          rw [propEq_eq_true_iff, hname]
          intro hcon
          exact hx (Option.some.inj hcon).symm
        rw [h1, List.find?_nil, if_neg (fun hcon => hx hcon.1)]

/-- The value stored in the pivot for a (name, group) pair is the one set
by the last row carrying that pair, for group values and queried keys
other than `"name"`. -/
lemma fieldAt_pivot_foldl (rows : List RRow) (acc : List JObj) (x : JVal) (q : String)
    (hg : ∀ r ∈ rows, r.group ≠ "name") (hq : q ≠ "name") :
    fieldAt (rows.foldl pivotStep acc) x q =
      match rows.reverse.find? (fun r => r.name == x && r.group == q) with
      | some r => some (yJVal r.y)
      | none => fieldAt acc x q := by
  induction rows generalizing acc with
  | nil => simp
  | cons r rs ih =>
    have hgr : r.group ≠ "name" := hg r (by simp)
    have hgs : ∀ r2 ∈ rs, r2.group ≠ "name" := fun r2 h2 => hg r2 (by simp [h2])
    rw [List.foldl_cons, ih (pivotStep acc r) hgs]
    rw [List.reverse_cons, List.find?_append]
    cases hf : rs.reverse.find? (fun r2 => r2.name == x && r2.group == q) with
    | some r2 => simp [hf]
    | none =>
      rw [Option.none_or]
      by_cases hp : (r.name == x && r.group == q) = true
      · have hx : x = r.name ∧ q = r.group := by
          simp only [Bool.and_eq_true, beq_iff_eq] at hp
          exact ⟨hp.1.symm, hp.2.symm⟩
        have h1 : List.find? (fun r2 => r2.name == x && r2.group == q) [r] = some r :=
          List.find?_cons_of_pos _ hp
        rw [h1, fieldAt_pivotStep acc r x q hgr hq, if_pos hx]
      · have hx : ¬(x = r.name ∧ q = r.group) := by
          simp only [Bool.and_eq_true, beq_iff_eq] at hp
          rintro ⟨h1, h2⟩
          exact hp ⟨h1.symm, h2.symm⟩
        have h1 : List.find? (fun r2 => r2.name == x && r2.group == q) [r] =
            List.find? (fun r2 => r2.name == x && r2.group == q) [] :=
          List.find?_cons_of_neg _ hp
        rw [h1, List.find?_nil, fieldAt_pivotStep acc r x q hgr hq, if_neg hx]

/-- Membership in a relative dedup. -/
lemma mem_dedupNew {α : Type} [DecidableEq α] (seen l : List α) (x : α) :
    x ∈ dedupNew seen l ↔ x ∈ l ∧ x ∉ seen := by
  induction l generalizing seen with
  | nil => simp [dedupNew]
  | cons a as ih =>
    by_cases ha : a ∈ seen
    · rw [dedupNew, if_pos ha, ih]
      constructor
      · rintro ⟨h1, h2⟩; exact ⟨List.mem_cons_of_mem _ h1, h2⟩
      · rintro ⟨h1, h2⟩
        rcases List.mem_cons.mp h1 with h | h
        · exact absurd (h ▸ ha) h2
        · exact ⟨h, h2⟩
    · rw [dedupNew, if_neg ha]
      constructor
      · intro hmem
        rcases List.mem_cons.mp hmem with h | h
        · exact ⟨h ▸ List.mem_cons_self a as, h ▸ ha⟩
        · obtain ⟨h1, h2⟩ := (ih (seen ++ [a])).mp h
          refine ⟨List.mem_cons_of_mem _ h1, fun hcon => h2 ?_⟩
          simp [hcon]
      · rintro ⟨h1, h2⟩
        by_cases hxa : x = a
        · exact hxa ▸ List.mem_cons_self _ _
        · rcases List.mem_cons.mp h1 with h | h
          · exact absurd h hxa
          · refine List.mem_cons_of_mem _ ((ih (seen ++ [a])).mpr ⟨h, ?_⟩)
            simp [h2, hxa]

/-- A relative dedup is duplicate-free. -/
lemma nodup_dedupNew {α : Type} [DecidableEq α] (seen l : List α) :
    (dedupNew seen l).Nodup := by
  induction l generalizing seen with
  | nil => simp [dedupNew]
  | cons a as ih =>
    by_cases ha : a ∈ seen
    · rw [dedupNew, if_pos ha]; exact ih seen
    · rw [dedupNew, if_neg ha]
      refine List.nodup_cons.mpr ⟨?_, ih (seen ++ [a])⟩
      rw [mem_dedupNew]
      rintro ⟨_, h2⟩
      exact h2 (by simp)

/-- The name-property list produced by the pivot fold, for rows whose
group values avoid `"name"`: the already-present names followed by the new
names, first occurrences only, in order. -/
lemma pivot_names (rows : List RRow) (acc : List JObj)
    (hg : ∀ r ∈ rows, r.group ≠ "name") :
    (rows.foldl pivotStep acc).map (fun e => getProp e "name") =
      acc.map (fun e => getProp e "name") ++
        dedupNew (acc.map (fun e => getProp e "name"))
          (rows.map (fun r => some r.name)) := by
  induction rows generalizing acc with
  | nil => simp [dedupNew]
  | cons r rs ih =>
    have hgr : r.group ≠ "name" := hg r (by simp)
    have hgs : ∀ r2 ∈ rs, r2.group ≠ "name" := fun r2 h2 => hg r2 (by simp [h2])
    rw [List.foldl_cons, ih (pivotStep acc r) hgs]
    by_cases hmem : acc.any (fun e => propEq (getProp e "name") r.name) = true
    · have hin : (some r.name : Option JVal) ∈ acc.map (fun e => getProp e "name") := by
        simp only [List.any_eq_true] at hmem
        obtain ⟨e, he, hen⟩ := hmem
        rw [propEq_eq_true_iff] at hen
        exact List.mem_map.mpr ⟨e, he, hen⟩
      rw [pivotStep, if_pos hmem, names_updateFirstObj acc r.name r.group (yJVal r.y) hgr]
      rw [List.map_cons, dedupNew, if_pos hin]
    · have hnin : (some r.name : Option JVal) ∉ acc.map (fun e => getProp e "name") := by
        simp only [List.any_eq_true] at hmem
        intro hcon
        obtain ⟨e, he, hen⟩ := List.mem_map.mp hcon
        exact hmem ⟨e, he, (propEq_eq_true_iff _ _).mpr hen⟩
      rw [pivotStep, if_neg hmem]
      rw [List.map_cons, dedupNew, if_neg hnin]
      rw [List.map_append, setProp_new r.name r.group (yJVal r.y) hgr]
      have hname : getProp [("name", r.name), (r.group, yJVal r.y)] "name" =
          some r.name := by
        simp [getProp, List.lookup_cons]
      simp [hname, List.append_assoc]

/-- A property read from a value list implies membership. -/
lemma lookup_mem (fs : JObj) (k : String) (v : JVal) (h : fs.lookup k = some v) :
    (k, v) ∈ fs := by
  induction fs with
  | nil => simp [List.lookup] at h
  | cons kv fs ih =>
    obtain ⟨k2, v2⟩ := kv
    rw [List.lookup_cons] at h
    by_cases hk : (k == k2) = true
    · rw [hk] at h
      rw [beq_iff_eq] at hk
      have hv : v2 = v := Option.some.inj h
      rw [hk, hv]
      exact List.mem_cons_self _ _
    · rw [Bool.eq_false_iff.mpr hk] at h
      exact List.mem_cons_of_mem _ (ih h)

/-- Properties after a write come from the old object or are the written
pair. -/
lemma mem_setProp (fs : JObj) (g : String) (y : JVal) (k : String) (v : JVal)
    (h : (k, v) ∈ setProp fs g y) : (k, v) ∈ fs ∨ (k = g ∧ v = y) := by
  induction fs with
  | nil =>
    rw [setProp, List.mem_singleton] at h
    exact Or.inr ⟨congrArg Prod.fst h, congrArg Prod.snd h⟩
  | cons kv fs ih =>
    obtain ⟨k2, v2⟩ := kv
    rw [setProp] at h
    by_cases hk : (k2 == g) = true
    · rw [if_pos hk] at h
      rcases List.mem_cons.mp h with h2 | h2
      · exact Or.inr ⟨congrArg Prod.fst h2, congrArg Prod.snd h2⟩
      · exact Or.inl (List.mem_cons_of_mem _ h2)
    · rw [if_neg hk] at h
      rcases List.mem_cons.mp h with h2 | h2
      · exact Or.inl (h2 ▸ List.mem_cons_self _ _)
      · rcases ih h2 with h3 | h3
        · exact Or.inl (List.mem_cons_of_mem _ h3)
        · exact Or.inr h3

/-- Entries after an in-place update come from the old list or are an old
entry with one written key. -/
lemma mem_updateFirstObj (P : List JObj) (x : JVal) (g : String) (y : JVal)
    (e2 : JObj) (h : e2 ∈ updateFirstObj P x g y) :
    e2 ∈ P ∨ ∃ e ∈ P, e2 = setProp e g y := by
  induction P with
  | nil => simp [updateFirstObj] at h
  | cons e es ih =>
    rw [updateFirstObj] at h
    by_cases he : propEq (getProp e "name") x = true
    · rw [if_pos he] at h
      rcases List.mem_cons.mp h with h2 | h2
      · exact Or.inr ⟨e, List.mem_cons_self _ _, h2⟩
      · exact Or.inl (List.mem_cons_of_mem _ h2)
    · rw [if_neg he] at h
      rcases List.mem_cons.mp h with h2 | h2
      · exact Or.inl (h2 ▸ List.mem_cons_self _ _)
      · rcases ih h2 with h3 | h3
        · exact Or.inl (List.mem_cons_of_mem _ h3)
        · obtain ⟨e3, he3, heq⟩ := h3
          exact Or.inr ⟨e3, List.mem_cons_of_mem _ he3, heq⟩

/-- Every non-`"name"` property of a pivot entry was written by
`entry[g] = y` and therefore holds a null or a number, never a string. -/
lemma pivot_props (rows : List RRow) :
    ∀ e ∈ pivotOf rows, ∀ k v, (k, v) ∈ e → k ≠ "name" →
      v = JVal.vnull ∨ ∃ n, v = JVal.vnum n := by
  have h : ∀ (acc : List JObj),
      (∀ e ∈ acc, ∀ k v, (k, v) ∈ e → k ≠ "name" →
        v = JVal.vnull ∨ ∃ n, v = JVal.vnum n) →
      ∀ e ∈ rows.foldl pivotStep acc, ∀ k v, (k, v) ∈ e → k ≠ "name" →
        v = JVal.vnull ∨ ∃ n, v = JVal.vnum n := by
    induction rows with
    | nil => intro acc hacc; simpa using hacc
    | cons r rs ih =>
      intro acc hacc
      rw [List.foldl_cons]
      refine ih (pivotStep acc r) ?_
      intro e he k v hkv hk
      rw [pivotStep] at he
      have hy : yJVal r.y = JVal.vnull ∨ ∃ n, yJVal r.y = JVal.vnum n := by
        cases r.y with
        | none => exact Or.inl rfl
        | some n => exact Or.inr ⟨n, rfl⟩
      by_cases hmem : acc.any (fun e => propEq (getProp e "name") r.name) = true
      · rw [if_pos hmem] at he
        rcases mem_updateFirstObj acc r.name r.group (yJVal r.y) e he with h2 | h2
        · exact hacc e h2 k v hkv hk
        · obtain ⟨e0, he0, rfl⟩ := h2
          rcases mem_setProp e0 r.group (yJVal r.y) k v hkv with h3 | h3
          · exact hacc e0 he0 k v h3 hk
          · rw [h3.2]; exact hy
      · rw [if_neg hmem] at he
        rcases List.mem_append.mp he with h2 | h2
        · exact hacc e h2 k v hkv hk
        · rw [List.mem_singleton] at h2
          subst h2
          rcases mem_setProp [("name", r.name)] r.group (yJVal r.y) k v hkv with h3 | h3
          · rw [List.mem_singleton] at h3
            exact absurd (congrArg Prod.fst h3) hk
          · rw [h3.2]; exact hy
  exact h [] (by simp)

/-- At group keys, pivot entries never hold a string — provided no group
value is the reserved key `"name"`. -/
lemma pivot_groupkey_not_string (rows : List RRow)
    (hg : ∀ r ∈ rows, r.group ≠ "name") (e : JObj) (he : e ∈ pivotOf rows) :
    ∀ g ∈ groupKeysOf rows, ∀ s, getProp e g ≠ some (JVal.vstr s) := by
  intro g hgk s hcon
  have hmemg : g ∈ rows.map (fun r => r.group) := by
    rw [groupKeysOf] at hgk
    exact ((mem_dedupNew _ _ _).mp hgk).1
  have hgname : g ≠ "name" := by
    obtain ⟨r, hr, hrg⟩ := List.mem_map.mp hmemg
    exact hrg ▸ hg r hr
  have hmem := lookup_mem e g (JVal.vstr s) hcon
  rcases pivot_props rows e he g (JVal.vstr s) hmem hgname with h | ⟨n, h⟩
  · exact JVal.noConfusion h
  · exact JVal.noConfusion h

/-- Numeric evaluation of the reduce: when the entry holds no string at
the observed group keys, the JavaScript sum is the integer sum with
missing values counting as 0. -/
lemma rowSumAcc_numeric_aux (e : JObj) :
    ∀ (ks : List String) (m : Int),
      (∀ g ∈ ks, ∀ s, getProp e g ≠ some (JVal.vstr s)) →
      ks.foldl (fun acc g => jsPlus acc (jsOrZero (getProp e g))) (JSAcc.num m) =
        JSAcc.num (ks.foldl (fun acc g => acc + numOrZero (getProp e g)) m) := by
  intro ks
  induction ks with
  | nil => intro m h; rfl
  | cons g gs ih =>
    intro m h
    have hg := h g (by simp)
    have hstep : jsPlus (JSAcc.num m) (jsOrZero (getProp e g)) =
        JSAcc.num (m + numOrZero (getProp e g)) := by
      cases hv : getProp e g with
      | none => simp [jsOrZero, jsPlus, numOrZero]
      | some w =>
        cases w with
        | vnull => simp [jsOrZero, jsTruthy, jsPlus, numOrZero]
        | vnum n =>
          by_cases hn : n = 0
          · simp [jsOrZero, jsTruthy, hn, jsPlus, numOrZero]
          · simp [jsOrZero, jsTruthy, hn, jsPlus, numOrZero]
        | vstr s => exact absurd hv (hg s)
    rw [List.foldl_cons, List.foldl_cons, hstep]
    exact ih (m + numOrZero (getProp e g)) (fun g2 hg2 s => h g2 (by simp [hg2]) s)

/-- The JavaScript group-value sum of a string-free entry is its integer
sum. -/
lemma rowSumAcc_numeric (ks : List String) (e : JObj)
    (h : ∀ g ∈ ks, ∀ s, getProp e g ≠ some (JVal.vstr s)) :
    rowSumAcc ks e = JSAcc.num (rowSumInt ks e) :=
  rowSumAcc_numeric_aux e ks 0 h

/-- The SortCompare relation coincides with descending integer-sum order
on entries with numeric sums. -/
lemma sortCmp_le_iff (ks : List String) (a b : JObj)
    (ha : rowSumAcc ks a = JSAcc.num (rowSumInt ks a))
    (hb : rowSumAcc ks b = JSAcc.num (rowSumInt ks b)) :
    (sortCmp ks a b ≤ 0) ↔ rowSumInt ks b ≤ rowSumInt ks a := by
  rw [sortCmp, ha, hb]
  show rowSumInt ks b - rowSumInt ks a ≤ 0 ↔ _
  exact sub_nonpos

/-- Ordered insertion only compares the inserted element with list
elements, so relations agreeing there insert identically. -/
lemma orderedInsert_congr {α : Type} (r r2 : α → α → Prop)
    [DecidableRel r] [DecidableRel r2] (a : α) (l : List α)
    (h : ∀ y ∈ l, (r a y ↔ r2 a y)) :
    List.orderedInsert r a l = List.orderedInsert r2 a l := by
  induction l with
  | nil => rfl
  | cons b bs ih =>
    rw [List.orderedInsert, List.orderedInsert]
    by_cases hr : r a b
    · rw [if_pos hr, if_pos ((h b (List.mem_cons_self _ _)).mp hr)]
    · rw [if_neg hr, if_neg (fun hc => hr ((h b (List.mem_cons_self _ _)).mpr hc)),
        ih (fun y hy => h y (List.mem_cons_of_mem _ hy))]

/-- Insertion sort only compares list elements with each other, so
relations agreeing on them sort identically. -/
lemma insertionSort_congr {α : Type} (r r2 : α → α → Prop)
    [DecidableRel r] [DecidableRel r2] (l : List α)
    (h : ∀ x ∈ l, ∀ y ∈ l, (r x y ↔ r2 x y)) :
    List.insertionSort r l = List.insertionSort r2 l := by
  induction l with
  | nil => rfl
  | cons a as ih =>
    rw [List.insertionSort, List.insertionSort,
      ih (fun x hx y hy => h x (List.mem_cons_of_mem _ hx) y (List.mem_cons_of_mem _ hy))]
    refine orderedInsert_congr r r2 a _ ?_
    intro y hy
    have hy2 : y ∈ as := (List.perm_insertionSort r2 as).mem_iff.mp hy
    exact h a (List.mem_cons_self _ _) y (List.mem_cons_of_mem _ hy2)

/-- Counterexample for C3: a row with a null x value is not dropped — it
produces an output entry in the grouped case; a row with a null required Y
value is retained in the ungrouped case. -/
theorem null_rows_not_dropped :
    reshapeGrouped [⟨JVal.vnull, "east", some 10⟩] =
      [[("name", JVal.vnull), ("east", JVal.vnum 10)]]
  ∧ reshapeUngrouped [⟨JVal.vnull, none⟩] = [⟨JVal.vnull, none⟩] :=
  ⟨rfl, rfl⟩

/-- C3 (amended): the reshaper applies no filtering at all — the ungrouped
output is a permutation of its input (null-name and null-Y rows included),
and in the grouped case, provided no observed group value equals the
reserved property key `"name"` (which would overwrite an entry's name),
every input row — including rows with a null x value or a null required Y
value — contributes an output entry whose name property holds its x
value. -/
theorem reshaper_keeps_all_rows :
    (∀ (rows : List RRow) (r : RRow), r ∈ rows →
      (∀ r2 ∈ rows, r2.group ≠ "name") →
      ∃ e ∈ reshapeGrouped rows, getProp e "name" = some r.name)
  ∧ (∀ rows : List URow, (reshapeUngrouped rows).Perm rows) := by
  constructor
  · intro rows r hr hg
    have hperm : (reshapeGrouped rows).Perm (pivotOf rows) :=
      List.perm_insertionSort _ _
    have hmem : (some r.name : Option JVal) ∈
        (pivotOf rows).map (fun e => getProp e "name") := by
      rw [pivotOf, pivot_names rows [] hg]
      simp only [List.map_nil, List.nil_append]
      rw [mem_dedupNew]
      refine ⟨?_, by simp⟩
      exact List.mem_map.mpr ⟨r, hr, rfl⟩
    obtain ⟨e, he, hen⟩ := List.mem_map.mp hmem
    exact ⟨e, hperm.mem_iff.mpr he, hen⟩
  · intro rows
    rw [reshapeUngrouped]
    split
    · exact List.perm_insertionSort _ _
    · exact List.Perm.refl _

/-- Witness for C3 (amended): the null-name row of the counterexample
contributes an output entry named null; the null-Y ungrouped row is
retained. -/
theorem reshaper_keeps_all_rows_witness :
    (∃ e ∈ reshapeGrouped [⟨JVal.vnull, "east", some 10⟩],
      getProp e "name" = some JVal.vnull)
  ∧ (reshapeUngrouped [⟨JVal.vnull, none⟩]).Perm [⟨JVal.vnull, none⟩] :=
  ⟨reshaper_keeps_all_rows.1 [⟨JVal.vnull, "east", some 10⟩]
    ⟨JVal.vnull, "east", some 10⟩ (by decide) (by decide),
   reshaper_keeps_all_rows.2 [⟨JVal.vnull, none⟩]⟩

/-- Rows exhibiting the property-namespace collision: the first row's
group value is the string `"name"`. -/
def collisionRows : List RRow :=
  [⟨.vstr "A", "name", some 7⟩, ⟨.vstr "A", "east", some 3⟩]

/-- Counterexample for C4: with a group value equal to `"name"`,
`entry["name"] = y` overwrites the first entry's name, `pivot.find` stops
matching, and a second entry is created for the same x value — the input
has one distinct x value but the reshaped output has two entries, so
reshaping does not produce exactly one output entry per distinct x
value. -/
theorem name_collision_duplicate_entries :
    dedupNew [] (collisionRows.map (fun r => r.name)) = [JVal.vstr "A"]
  ∧ pivotOf collisionRows =
      [[("name", JVal.vnum 7)], [("name", JVal.vstr "A"), ("east", JVal.vnum 3)]]
  ∧ (reshapeGrouped collisionRows).length = 2 :=
  ⟨rfl, rfl, rfl⟩

/-- C4 (amended): provided no observed group value equals the reserved
property key `"name"`, grouped reshaping produces one output entry per
distinct x value in input order of first appearance; the entry's property
for group key g holds the first Y value of the row carrying that x and g;
uniqueGroupKeys is the duplicate-free list of observed group values; and
the output is the pivot list sorted descending by the per-row sum of group
values over all group keys, missing values counting as 0. -/
theorem grouped_reshape_pivot_sort (rows : List RRow)
    (hg : ∀ r ∈ rows, r.group ≠ "name")
    (hUnique : ∀ r1 ∈ rows, ∀ r2 ∈ rows,
      r1.name = r2.name → r1.group = r2.group → r1.y = r2.y) :
    ((pivotOf rows).map (fun e => getProp e "name") =
      dedupNew [] (rows.map (fun r => some r.name)))
  ∧ (∀ r ∈ rows, fieldAt (pivotOf rows) r.name r.group = some (yJVal r.y))
  ∧ ((groupKeysOf rows).Nodup ∧
      ∀ g, g ∈ groupKeysOf rows ↔ g ∈ rows.map (fun r => r.group))
  ∧ ((reshapeGrouped rows).Perm (pivotOf rows) ∧
      (reshapeGrouped rows).Sorted
        (fun a b => rowSumInt (groupKeysOf rows) b ≤ rowSumInt (groupKeysOf rows) a)) := by
  have hnum : ∀ e ∈ pivotOf rows,
      rowSumAcc (groupKeysOf rows) e = JSAcc.num (rowSumInt (groupKeysOf rows) e) :=
    fun e he => rowSumAcc_numeric _ e (pivot_groupkey_not_string rows hg e he)
  have hcong : reshapeGrouped rows =
      List.insertionSort
        (fun a b => rowSumInt (groupKeysOf rows) b ≤ rowSumInt (groupKeysOf rows) a)
        (pivotOf rows) := by
    rw [reshapeGrouped]
    refine insertionSort_congr _ _ _ ?_
    intro a ha b hb
    exact sortCmp_le_iff (groupKeysOf rows) a b (hnum a ha) (hnum b hb)
  refine ⟨?_, ?_, ⟨nodup_dedupNew _ _, ?_⟩, ?_, ?_⟩
  · rw [pivotOf, pivot_names rows [] hg]
    simp
  · intro r hr
    have hgr : r.group ≠ "name" := hg r hr
    rw [pivotOf, fieldAt_pivot_foldl rows [] r.name r.group hg hgr]
    cases hfind : rows.reverse.find?
        (fun r2 => r2.name == r.name && r2.group == r.group) with
    | none =>
      exact absurd (List.find?_eq_none.mp hfind r (List.mem_reverse.mpr hr) (by simp))
        (by simp)
    | some r2 =>
      have hp := List.find?_some hfind
      simp only [Bool.and_eq_true, beq_iff_eq] at hp
      have hm2 : r2 ∈ rows := List.mem_reverse.mp (List.mem_of_find?_eq_some hfind)
      show some (yJVal r2.y) = some (yJVal r.y)
      rw [hUnique r2 hm2 r hr hp.1 hp.2]
  · intro g
    rw [groupKeysOf, mem_dedupNew]
    simp
  · rw [hcong]
    exact List.perm_insertionSort _ _
  · rw [hcong]
    haveI h1 : IsTotal JObj
        (fun a b => rowSumInt (groupKeysOf rows) b ≤ rowSumInt (groupKeysOf rows) a) :=
      ⟨fun a b => le_total _ _⟩
    haveI h2 : IsTrans JObj
        (fun a b => rowSumInt (groupKeysOf rows) b ≤ rowSumInt (groupKeysOf rows) a) :=
      ⟨fun a b c hab hbc => le_trans hbc hab⟩
    exact List.sorted_insertionSort _ _

/-- The spec's reshaping example: rows (A, east, 10), (A, west, 5),
(B, east, 7). -/
def witnessRows : List RRow :=
  [⟨.vstr "A", "east", some 10⟩, ⟨.vstr "A", "west", some 5⟩, ⟨.vstr "B", "east", some 7⟩]

/-- Witness for C4 (amended), at the spec's example: entries named A and B
in first-appearance order, A's west property holds 5, group keys are east
and west in observed order, and A (sum 15) precedes B (sum 7). -/
theorem grouped_reshape_pivot_sort_witness :
    ((pivotOf witnessRows).map (fun e => getProp e "name") =
      dedupNew [] (witnessRows.map (fun r => some r.name)))
  ∧ fieldAt (pivotOf witnessRows) (.vstr "A") "west" = some (JVal.vnum 5)
  ∧ groupKeysOf witnessRows = ["east", "west"]
  ∧ reshapeGrouped witnessRows =
      [[("name", JVal.vstr "A"), ("east", JVal.vnum 10), ("west", JVal.vnum 5)],
       [("name", JVal.vstr "B"), ("east", JVal.vnum 7)]] := by
  refine ⟨(grouped_reshape_pivot_sort witnessRows (by decide) (by decide)).1, ?_, rfl, rfl⟩
  exact (grouped_reshape_pivot_sort witnessRows (by decide) (by decide)).2.1
    ⟨.vstr "A", "west", some 5⟩ (by decide)

end Restarant
